import Mathlib

/-!
# Verification of the AIBPB `RangeProof` circom circuit

This file gives a shallow embedding, in Lean 4, of the constraint system
described in `circuits/range_proof.circom` (circom 2.0.0, bn128 scalar
field), together with proofs of the functional-correctness, soundness and
uniqueness properties of its gadgets: `Num2Bits`, `LessThan`,
`GreaterThan`, `GreaterEqThan`, `LessEqThan` and the top-level
`RangeProof` template.

The field of the circuit is `ZMod p` for the bn128 scalar prime `p`.  The
soundness arguments need `p` to be prime (the boolean constraint
`b·(b-1) = 0` pins `b` to `{0,1}` only in an integral domain), so we begin
with a verified Pratt/Lucas primality certificate for `p`.
-/

set_option maxRecDepth 20000

namespace RangeProofCircuit

/-! ## Fast modular exponentiation, used to check the primality certificate -/

/-- Binary modular exponentiation with explicit fuel: `powMod f a k m`
computes `a ^ k % m` provided `k < 2 ^ f`. -/
def powMod : ℕ → ℕ → ℕ → ℕ → ℕ
  | 0, _, _, m => 1 % m
  | f + 1, a, k, m =>
    if k = 0 then 1 % m
    else
      let r := powMod f (a * a % m) (k / 2) m
      if k % 2 = 1 then r * a % m else r

theorem powMod_eq (f : ℕ) : ∀ a k m : ℕ, k < 2 ^ f → powMod f a k m = a ^ k % m := by
  induction f with
  | zero =>
    intro a k m hk
    interval_cases k
    simp [powMod]
  | succ f ih =>
    intro a k m hk
    rcases Nat.eq_zero_or_pos k with hk0 | hk0
    · subst hk0; simp [powMod]
    · have hk2 : k / 2 < 2 ^ f := by
        have : k < 2 ^ f * 2 := by
          simpa [Nat.pow_succ] using hk
        omega
      have hrec : powMod f (a * a % m) (k / 2) m = (a * a) ^ (k / 2) % m := by
        rw [ih (a * a % m) (k / 2) m hk2, Nat.pow_mod, Nat.mod_mod_of_dvd, ← Nat.pow_mod]
        exact dvd_refl m
      have hsplit : k = 2 * (k / 2) + k % 2 := (Nat.div_add_mod k 2).symm ▸ by omega
      show (if k = 0 then 1 % m else
        if k % 2 = 1 then powMod f (a * a % m) (k / 2) m * a % m
        else powMod f (a * a % m) (k / 2) m) = a ^ k % m
      rw [if_neg (by omega), hrec]
      have hpow : (a * a) ^ (k / 2) = a ^ (2 * (k / 2)) := by
        rw [two_mul, pow_add, ← mul_pow]
      rcases Nat.mod_two_eq_zero_or_one k with h2 | h2
      · have hk' : 2 * (k / 2) = k := by omega
        rw [if_neg (by omega), hpow, hk']
      · have hk' : 2 * (k / 2) + 1 = k := by omega
        rw [if_pos h2, hpow, Nat.mod_mul_mod, ← pow_succ, hk']

/-- Casting bridge: a power in `ZMod q` can be computed by `powMod`. -/
theorem castPow_eq_powMod (q a k : ℕ) (hk : k < 2 ^ 300) :
    ((a : ℕ) : ZMod q) ^ k = ((powMod 300 a k q : ℕ) : ZMod q) := by
  rw [powMod_eq 300 a k q hk, ← Nat.cast_pow, ZMod.natCast_mod]

/-- A natural number `r` with `r < q`, `r ≠ 1`, `2 ≤ q` does not cast to `1`. -/
theorem natCast_ne_one (q r : ℕ) (h2 : 2 ≤ q) (hr : r < q) (hne : r ≠ 1) :
    ((r : ℕ) : ZMod q) ≠ 1 := by
  intro h
  have hv : ((r : ℕ) : ZMod q).val = r := ZMod.val_cast_of_lt hr
  rw [h, ZMod.val_one_eq_one_mod, Nat.mod_eq_of_lt (by omega)] at hv
  exact hne hv.symm

theorem dvd_split2 {r a1 a2 : ℕ} (hr : r.Prime) (hd : r ∣ a1 * a2) :
    r ∣ a1 ∨ r ∣ a2 := hr.dvd_mul.mp hd

theorem dvd_split3 {r a1 a2 a3 : ℕ} (hr : r.Prime) (hd : r ∣ a1 * a2 * a3) :
    (r ∣ a1 ∨ r ∣ a2) ∨ r ∣ a3 := Or.imp_left (dvd_split2 hr) (hr.dvd_mul.mp hd)

theorem dvd_split4 {r a1 a2 a3 a4 : ℕ} (hr : r.Prime) (hd : r ∣ a1 * a2 * a3 * a4) :
    ((r ∣ a1 ∨ r ∣ a2) ∨ r ∣ a3) ∨ r ∣ a4 := Or.imp_left (dvd_split3 hr) (hr.dvd_mul.mp hd)

theorem dvd_split5 {r a1 a2 a3 a4 a5 : ℕ} (hr : r.Prime) (hd : r ∣ a1 * a2 * a3 * a4 * a5) :
    (((r ∣ a1 ∨ r ∣ a2) ∨ r ∣ a3) ∨ r ∣ a4) ∨ r ∣ a5 :=
  Or.imp_left (dvd_split4 hr) (hr.dvd_mul.mp hd)

theorem dvd_split6 {r a1 a2 a3 a4 a5 a6 : ℕ} (hr : r.Prime)
    (hd : r ∣ a1 * a2 * a3 * a4 * a5 * a6) :
    ((((r ∣ a1 ∨ r ∣ a2) ∨ r ∣ a3) ∨ r ∣ a4) ∨ r ∣ a5) ∨ r ∣ a6 :=
  Or.imp_left (dvd_split5 hr) (hr.dvd_mul.mp hd)

theorem dvd_split7 {r a1 a2 a3 a4 a5 a6 a7 : ℕ} (hr : r.Prime)
    (hd : r ∣ a1 * a2 * a3 * a4 * a5 * a6 * a7) :
    (((((r ∣ a1 ∨ r ∣ a2) ∨ r ∣ a3) ∨ r ∣ a4) ∨ r ∣ a5) ∨ r ∣ a6) ∨ r ∣ a7 :=
  Or.imp_left (dvd_split6 hr) (hr.dvd_mul.mp hd)

theorem dvd_split8 {r a1 a2 a3 a4 a5 a6 a7 a8 : ℕ} (hr : r.Prime)
    (hd : r ∣ a1 * a2 * a3 * a4 * a5 * a6 * a7 * a8) :
    ((((((r ∣ a1 ∨ r ∣ a2) ∨ r ∣ a3) ∨ r ∣ a4) ∨ r ∣ a5) ∨ r ∣ a6) ∨ r ∣ a7) ∨ r ∣ a8 :=
  Or.imp_left (dvd_split7 hr) (hr.dvd_mul.mp hd)

theorem dvd_split9 {r a1 a2 a3 a4 a5 a6 a7 a8 a9 : ℕ} (hr : r.Prime)
    (hd : r ∣ a1 * a2 * a3 * a4 * a5 * a6 * a7 * a8 * a9) :
    (((((((r ∣ a1 ∨ r ∣ a2) ∨ r ∣ a3) ∨ r ∣ a4) ∨ r ∣ a5) ∨ r ∣ a6) ∨ r ∣ a7) ∨
      r ∣ a8) ∨ r ∣ a9 :=
  Or.imp_left (dvd_split8 hr) (hr.dvd_mul.mp hd)

theorem dvd_split10 {r a1 a2 a3 a4 a5 a6 a7 a8 a9 a10 : ℕ} (hr : r.Prime)
    (hd : r ∣ a1 * a2 * a3 * a4 * a5 * a6 * a7 * a8 * a9 * a10) :
    ((((((((r ∣ a1 ∨ r ∣ a2) ∨ r ∣ a3) ∨ r ∣ a4) ∨ r ∣ a5) ∨ r ∣ a6) ∨ r ∣ a7) ∨
      r ∣ a8) ∨ r ∣ a9) ∨ r ∣ a10 :=
  Or.imp_left (dvd_split9 hr) (hr.dvd_mul.mp hd)


/-! ## Primality certificates -/

theorem prime_2 : Nat.Prime 2 := by norm_num
theorem prime_3 : Nat.Prime 3 := by norm_num
theorem prime_5 : Nat.Prime 5 := by norm_num
theorem prime_7 : Nat.Prime 7 := by norm_num
theorem prime_11 : Nat.Prime 11 := by norm_num
theorem prime_13 : Nat.Prime 13 := by norm_num
theorem prime_29 : Nat.Prime 29 := by norm_num
theorem prime_83 : Nat.Prime 83 := by norm_num
theorem prime_107 : Nat.Prime 107 := by norm_num
theorem prime_229 : Nat.Prime 229 := by norm_num
theorem prime_379 : Nat.Prime 379 := by norm_num
theorem prime_661 : Nat.Prime 661 := by norm_num
theorem prime_823 : Nat.Prime 823 := by norm_num
theorem prime_853 : Nat.Prime 853 := by norm_num
theorem prime_983 : Nat.Prime 983 := by norm_num
theorem prime_1637 : Nat.Prime 1637 := by norm_num
theorem prime_3691 : Nat.Prime 3691 := by norm_num
theorem prime_4999 : Nat.Prime 4999 := by norm_num
theorem prime_11003 : Nat.Prime 11003 := by norm_num
theorem prime_93001 : Nat.Prime 93001 := by norm_num
theorem prime_237073 : Nat.Prime 237073 := by norm_num
theorem prime_1593227 : Nat.Prime 1593227 := by norm_num

/-- Lucas primality certificate for `639533339`. -/
theorem prime_639533339 : Nat.Prime 639533339 := by
  apply lucas_primality 639533339 ((2 : ℕ) : ZMod 639533339)
  · rw [castPow_eq_powMod 639533339 2 (639533339 - 1) (by norm_num),
      show powMod 300 2 (639533339 - 1) 639533339 = 1 from by decide]
    exact Nat.cast_one
  · intro r hr hdvd
    have hfac : 639533339 - 1 = 2 * 229 * 853 * 1637 := by norm_num
    rw [hfac] at hdvd
    rcases dvd_split4 hr hdvd with (((h0 | h1) | h2) | h3)
    · have hreq : r = 2 := (Nat.prime_dvd_prime_iff_eq hr prime_2).mp h0
      subst hreq
      rw [show (639533339 - 1) / 2 = 319766669 from by norm_num,
        castPow_eq_powMod 639533339 2 319766669 (by norm_num),
        show powMod 300 2 319766669 639533339 = 639533338 from by decide]
      exact natCast_ne_one 639533339 639533338 (by norm_num) (by norm_num) (by norm_num)
    · have hreq : r = 229 := (Nat.prime_dvd_prime_iff_eq hr prime_229).mp h1
      subst hreq
      rw [show (639533339 - 1) / 229 = 2792722 from by norm_num,
        castPow_eq_powMod 639533339 2 2792722 (by norm_num),
        show powMod 300 2 2792722 639533339 = 271298491 from by decide]
      exact natCast_ne_one 639533339 271298491 (by norm_num) (by norm_num) (by norm_num)
    · have hreq : r = 853 := (Nat.prime_dvd_prime_iff_eq hr prime_853).mp h2
      subst hreq
      rw [show (639533339 - 1) / 853 = 749746 from by norm_num,
        castPow_eq_powMod 639533339 2 749746 (by norm_num),
        show powMod 300 2 749746 639533339 = 256057581 from by decide]
      exact natCast_ne_one 639533339 256057581 (by norm_num) (by norm_num) (by norm_num)
    · have hreq : r = 1637 := (Nat.prime_dvd_prime_iff_eq hr prime_1637).mp h3
      subst hreq
      rw [show (639533339 - 1) / 1637 = 390674 from by norm_num,
        castPow_eq_powMod 639533339 2 390674 (by norm_num),
        show powMod 300 2 390674 639533339 = 248876995 from by decide]
      exact natCast_ne_one 639533339 248876995 (by norm_num) (by norm_num) (by norm_num)

/-- Lucas primality certificate for `65865678001877903`. -/
theorem prime_65865678001877903 : Nat.Prime 65865678001877903 := by
  apply lucas_primality 65865678001877903 ((5 : ℕ) : ZMod 65865678001877903)
  · rw [castPow_eq_powMod 65865678001877903 5 (65865678001877903 - 1) (by norm_num),
      show powMod 300 5 (65865678001877903 - 1) 65865678001877903 = 1 from by decide]
    exact Nat.cast_one
  · intro r hr hdvd
    have hfac : 65865678001877903 - 1 = 2 * 83 * 379 * 1637 * 639533339 := by norm_num
    rw [hfac] at hdvd
    rcases dvd_split5 hr hdvd with ((((h0 | h1) | h2) | h3) | h4)
    · have hreq : r = 2 := (Nat.prime_dvd_prime_iff_eq hr prime_2).mp h0
      subst hreq
      rw [show (65865678001877903 - 1) / 2 = 32932839000938951 from by norm_num,
        castPow_eq_powMod 65865678001877903 5 32932839000938951 (by norm_num),
        show powMod 300 5 32932839000938951 65865678001877903 = 65865678001877902 from by decide]
      exact natCast_ne_one 65865678001877903 65865678001877902 (by norm_num) (by norm_num) (by norm_num)
    · have hreq : r = 83 := (Nat.prime_dvd_prime_iff_eq hr prime_83).mp h1
      subst hreq
      rw [show (65865678001877903 - 1) / 83 = 793562385564794 from by norm_num,
        castPow_eq_powMod 65865678001877903 5 793562385564794 (by norm_num),
        show powMod 300 5 793562385564794 65865678001877903 = 46316002665751102 from by decide]
      exact natCast_ne_one 65865678001877903 46316002665751102 (by norm_num) (by norm_num) (by norm_num)
    · have hreq : r = 379 := (Nat.prime_dvd_prime_iff_eq hr prime_379).mp h2
      subst hreq
      rw [show (65865678001877903 - 1) / 379 = 173788068606538 from by norm_num,
        castPow_eq_powMod 65865678001877903 5 173788068606538 (by norm_num),
        show powMod 300 5 173788068606538 65865678001877903 = 43783936274874531 from by decide]
      exact natCast_ne_one 65865678001877903 43783936274874531 (by norm_num) (by norm_num) (by norm_num)
    · have hreq : r = 1637 := (Nat.prime_dvd_prime_iff_eq hr prime_1637).mp h3
      subst hreq
      rw [show (65865678001877903 - 1) / 1637 = 40235600489846 from by norm_num,
        castPow_eq_powMod 65865678001877903 5 40235600489846 (by norm_num),
        show powMod 300 5 40235600489846 65865678001877903 = 56641079936670322 from by decide]
      exact natCast_ne_one 65865678001877903 56641079936670322 (by norm_num) (by norm_num) (by norm_num)
    · have hreq : r = 639533339 := (Nat.prime_dvd_prime_iff_eq hr prime_639533339).mp h4
      subst hreq
      rw [show (65865678001877903 - 1) / 639533339 = 102990218 from by norm_num,
        castPow_eq_powMod 65865678001877903 5 102990218 (by norm_num),
        show powMod 300 5 102990218 65865678001877903 = 18968088485270649 from by decide]
      exact natCast_ne_one 65865678001877903 18968088485270649 (by norm_num) (by norm_num) (by norm_num)

/-- Lucas primality certificate for `13818364434197438864469338081`. -/
theorem prime_13818364434197438864469338081 : Nat.Prime 13818364434197438864469338081 := by
  apply lucas_primality 13818364434197438864469338081 ((3 : ℕ) : ZMod 13818364434197438864469338081)
  · rw [castPow_eq_powMod 13818364434197438864469338081 3 (13818364434197438864469338081 - 1) (by norm_num),
      show powMod 300 3 (13818364434197438864469338081 - 1) 13818364434197438864469338081 = 1 from by decide]
    exact Nat.cast_one
  · intro r hr hdvd
    have hfac : 13818364434197438864469338081 - 1 = 2 ^ 5 * 5 * 823 * 1593227 * 65865678001877903 := by norm_num
    rw [hfac] at hdvd
    rcases dvd_split5 hr hdvd with ((((h0 | h1) | h2) | h3) | h4)
    · have hreq : r = 2 := (Nat.prime_dvd_prime_iff_eq hr prime_2).mp (hr.dvd_of_dvd_pow h0)
      subst hreq
      rw [show (13818364434197438864469338081 - 1) / 2 = 6909182217098719432234669040 from by norm_num,
        castPow_eq_powMod 13818364434197438864469338081 3 6909182217098719432234669040 (by norm_num),
        show powMod 300 3 6909182217098719432234669040 13818364434197438864469338081 = 13818364434197438864469338080 from by decide]
      exact natCast_ne_one 13818364434197438864469338081 13818364434197438864469338080 (by norm_num) (by norm_num) (by norm_num)
    · have hreq : r = 5 := (Nat.prime_dvd_prime_iff_eq hr prime_5).mp h1
      subst hreq
      rw [show (13818364434197438864469338081 - 1) / 5 = 2763672886839487772893867616 from by norm_num,
        castPow_eq_powMod 13818364434197438864469338081 3 2763672886839487772893867616 (by norm_num),
        show powMod 300 3 2763672886839487772893867616 13818364434197438864469338081 = 1236319344469036993987267104 from by decide]
      exact natCast_ne_one 13818364434197438864469338081 1236319344469036993987267104 (by norm_num) (by norm_num) (by norm_num)
    · have hreq : r = 823 := (Nat.prime_dvd_prime_iff_eq hr prime_823).mp h2
      subst hreq
      rw [show (13818364434197438864469338081 - 1) / 823 = 16790236250543668122076960 from by norm_num,
        castPow_eq_powMod 13818364434197438864469338081 3 16790236250543668122076960 (by norm_num),
        show powMod 300 3 16790236250543668122076960 13818364434197438864469338081 = 570363171180057177517864248 from by decide]
      exact natCast_ne_one 13818364434197438864469338081 570363171180057177517864248 (by norm_num) (by norm_num) (by norm_num)
    · have hreq : r = 1593227 := (Nat.prime_dvd_prime_iff_eq hr prime_1593227).mp h3
      subst hreq
      rw [show (13818364434197438864469338081 - 1) / 1593227 = 8673192479287282267040 from by norm_num,
        castPow_eq_powMod 13818364434197438864469338081 3 8673192479287282267040 (by norm_num),
        show powMod 300 3 8673192479287282267040 13818364434197438864469338081 = 9233249052774251384923794665 from by decide]
      exact natCast_ne_one 13818364434197438864469338081 9233249052774251384923794665 (by norm_num) (by norm_num) (by norm_num)
    · have hreq : r = 65865678001877903 := (Nat.prime_dvd_prime_iff_eq hr prime_65865678001877903).mp h4
      subst hreq
      rw [show (13818364434197438864469338081 - 1) / 65865678001877903 = 209796131360 from by norm_num,
        castPow_eq_powMod 13818364434197438864469338081 3 209796131360 (by norm_num),
        show powMod 300 3 209796131360 13818364434197438864469338081 = 11685553033882782147454259209 from by decide]
      exact natCast_ne_one 13818364434197438864469338081 11685553033882782147454259209 (by norm_num) (by norm_num) (by norm_num)

/-- Lucas primality certificate for `12048837557`. -/
theorem prime_12048837557 : Nat.Prime 12048837557 := by
  apply lucas_primality 12048837557 ((2 : ℕ) : ZMod 12048837557)
  · rw [castPow_eq_powMod 12048837557 2 (12048837557 - 1) (by norm_num),
      show powMod 300 2 (12048837557 - 1) 12048837557 = 1 from by decide]
    exact Nat.cast_one
  · intro r hr hdvd
    have hfac : 12048837557 - 1 = 2 ^ 2 * 7 ^ 2 * 661 * 93001 := by norm_num
    rw [hfac] at hdvd
    rcases dvd_split4 hr hdvd with (((h0 | h1) | h2) | h3)
    · have hreq : r = 2 := (Nat.prime_dvd_prime_iff_eq hr prime_2).mp (hr.dvd_of_dvd_pow h0)
      subst hreq
      rw [show (12048837557 - 1) / 2 = 6024418778 from by norm_num,
        castPow_eq_powMod 12048837557 2 6024418778 (by norm_num),
        show powMod 300 2 6024418778 12048837557 = 12048837556 from by decide]
      exact natCast_ne_one 12048837557 12048837556 (by norm_num) (by norm_num) (by norm_num)
    · have hreq : r = 7 := (Nat.prime_dvd_prime_iff_eq hr prime_7).mp (hr.dvd_of_dvd_pow h1)
      subst hreq
      rw [show (12048837557 - 1) / 7 = 1721262508 from by norm_num,
        castPow_eq_powMod 12048837557 2 1721262508 (by norm_num),
        show powMod 300 2 1721262508 12048837557 = 41029474 from by decide]
      exact natCast_ne_one 12048837557 41029474 (by norm_num) (by norm_num) (by norm_num)
    · have hreq : r = 661 := (Nat.prime_dvd_prime_iff_eq hr prime_661).mp h2
      subst hreq
      rw [show (12048837557 - 1) / 661 = 18228196 from by norm_num,
        castPow_eq_powMod 12048837557 2 18228196 (by norm_num),
        show powMod 300 2 18228196 12048837557 = 8877273464 from by decide]
      exact natCast_ne_one 12048837557 8877273464 (by norm_num) (by norm_num) (by norm_num)
    · have hreq : r = 93001 := (Nat.prime_dvd_prime_iff_eq hr prime_93001).mp h3
      subst hreq
      rw [show (12048837557 - 1) / 93001 = 129556 from by norm_num,
        castPow_eq_powMod 12048837557 2 129556 (by norm_num),
        show powMod 300 2 129556 12048837557 = 4746995210 from by decide]
      exact natCast_ne_one 12048837557 4746995210 (by norm_num) (by norm_num) (by norm_num)

/-- Lucas primality certificate for `5156902474397`. -/
theorem prime_5156902474397 : Nat.Prime 5156902474397 := by
  apply lucas_primality 5156902474397 ((2 : ℕ) : ZMod 5156902474397)
  · rw [castPow_eq_powMod 5156902474397 2 (5156902474397 - 1) (by norm_num),
      show powMod 300 2 (5156902474397 - 1) 5156902474397 = 1 from by decide]
    exact Nat.cast_one
  · intro r hr hdvd
    have hfac : 5156902474397 - 1 = 2 ^ 2 * 107 * 12048837557 := by norm_num
    rw [hfac] at hdvd
    rcases dvd_split3 hr hdvd with ((h0 | h1) | h2)
    · have hreq : r = 2 := (Nat.prime_dvd_prime_iff_eq hr prime_2).mp (hr.dvd_of_dvd_pow h0)
      subst hreq
      rw [show (5156902474397 - 1) / 2 = 2578451237198 from by norm_num,
        castPow_eq_powMod 5156902474397 2 2578451237198 (by norm_num),
        show powMod 300 2 2578451237198 5156902474397 = 5156902474396 from by decide]
      exact natCast_ne_one 5156902474397 5156902474396 (by norm_num) (by norm_num) (by norm_num)
    · have hreq : r = 107 := (Nat.prime_dvd_prime_iff_eq hr prime_107).mp h1
      subst hreq
      rw [show (5156902474397 - 1) / 107 = 48195350228 from by norm_num,
        castPow_eq_powMod 5156902474397 2 48195350228 (by norm_num),
        show powMod 300 2 48195350228 5156902474397 = 4827909776387 from by decide]
      exact natCast_ne_one 5156902474397 4827909776387 (by norm_num) (by norm_num) (by norm_num)
    · have hreq : r = 12048837557 := (Nat.prime_dvd_prime_iff_eq hr prime_12048837557).mp h2
      subst hreq
      rw [show (5156902474397 - 1) / 12048837557 = 428 from by norm_num,
        castPow_eq_powMod 5156902474397 2 428 (by norm_num),
        show powMod 300 2 428 5156902474397 = 4746712836098 from by decide]
      exact natCast_ne_one 5156902474397 4746712836098 (by norm_num) (by norm_num) (by norm_num)

/-- Lucas primality certificate for `1670836401704629`. -/
theorem prime_1670836401704629 : Nat.Prime 1670836401704629 := by
  apply lucas_primality 1670836401704629 ((2 : ℕ) : ZMod 1670836401704629)
  · rw [castPow_eq_powMod 1670836401704629 2 (1670836401704629 - 1) (by norm_num),
      show powMod 300 2 (1670836401704629 - 1) 1670836401704629 = 1 from by decide]
    exact Nat.cast_one
  · intro r hr hdvd
    have hfac : 1670836401704629 - 1 = 2 ^ 2 * 3 ^ 4 * 5156902474397 := by norm_num
    rw [hfac] at hdvd
    rcases dvd_split3 hr hdvd with ((h0 | h1) | h2)
    · have hreq : r = 2 := (Nat.prime_dvd_prime_iff_eq hr prime_2).mp (hr.dvd_of_dvd_pow h0)
      subst hreq
      rw [show (1670836401704629 - 1) / 2 = 835418200852314 from by norm_num,
        castPow_eq_powMod 1670836401704629 2 835418200852314 (by norm_num),
        show powMod 300 2 835418200852314 1670836401704629 = 1670836401704628 from by decide]
      exact natCast_ne_one 1670836401704629 1670836401704628 (by norm_num) (by norm_num) (by norm_num)
    · have hreq : r = 3 := (Nat.prime_dvd_prime_iff_eq hr prime_3).mp (hr.dvd_of_dvd_pow h1)
      subst hreq
      rw [show (1670836401704629 - 1) / 3 = 556945467234876 from by norm_num,
        castPow_eq_powMod 1670836401704629 2 556945467234876 (by norm_num),
        show powMod 300 2 556945467234876 1670836401704629 = 1322408984917240 from by decide]
      exact natCast_ne_one 1670836401704629 1322408984917240 (by norm_num) (by norm_num) (by norm_num)
    · have hreq : r = 5156902474397 := (Nat.prime_dvd_prime_iff_eq hr prime_5156902474397).mp h2
      subst hreq
      rw [show (1670836401704629 - 1) / 5156902474397 = 324 from by norm_num,
        castPow_eq_powMod 1670836401704629 2 324 (by norm_num),
        show powMod 300 2 324 1670836401704629 = 11046204280772 from by decide]
      exact natCast_ne_one 1670836401704629 11046204280772 (by norm_num) (by norm_num) (by norm_num)

/-- Lucas primality certificate for `405928799`. -/
theorem prime_405928799 : Nat.Prime 405928799 := by
  apply lucas_primality 405928799 ((22 : ℕ) : ZMod 405928799)
  · rw [castPow_eq_powMod 405928799 22 (405928799 - 1) (by norm_num),
      show powMod 300 22 (405928799 - 1) 405928799 = 1 from by decide]
    exact Nat.cast_one
  · intro r hr hdvd
    have hfac : 405928799 - 1 = 2 * 11 * 3691 * 4999 := by norm_num
    rw [hfac] at hdvd
    rcases dvd_split4 hr hdvd with (((h0 | h1) | h2) | h3)
    · have hreq : r = 2 := (Nat.prime_dvd_prime_iff_eq hr prime_2).mp h0
      subst hreq
      rw [show (405928799 - 1) / 2 = 202964399 from by norm_num,
        castPow_eq_powMod 405928799 22 202964399 (by norm_num),
        show powMod 300 22 202964399 405928799 = 405928798 from by decide]
      exact natCast_ne_one 405928799 405928798 (by norm_num) (by norm_num) (by norm_num)
    · have hreq : r = 11 := (Nat.prime_dvd_prime_iff_eq hr prime_11).mp h1
      subst hreq
      rw [show (405928799 - 1) / 11 = 36902618 from by norm_num,
        castPow_eq_powMod 405928799 22 36902618 (by norm_num),
        show powMod 300 22 36902618 405928799 = 215859951 from by decide]
      exact natCast_ne_one 405928799 215859951 (by norm_num) (by norm_num) (by norm_num)
    · have hreq : r = 3691 := (Nat.prime_dvd_prime_iff_eq hr prime_3691).mp h2
      subst hreq
      rw [show (405928799 - 1) / 3691 = 109978 from by norm_num,
        castPow_eq_powMod 405928799 22 109978 (by norm_num),
        show powMod 300 22 109978 405928799 = 147917081 from by decide]
      exact natCast_ne_one 405928799 147917081 (by norm_num) (by norm_num) (by norm_num)
    · have hreq : r = 4999 := (Nat.prime_dvd_prime_iff_eq hr prime_4999).mp h3
      subst hreq
      rw [show (405928799 - 1) / 4999 = 81202 from by norm_num,
        castPow_eq_powMod 405928799 22 81202 (by norm_num),
        show powMod 300 22 81202 405928799 = 61847818 from by decide]
      exact natCast_ne_one 405928799 61847818 (by norm_num) (by norm_num) (by norm_num)

/-- Lucas primality certificate for `21888242871839275222246405745257275088548364400416034343698204186575808495617`. -/
theorem prime_21888242871839275222246405745257275088548364400416034343698204186575808495617 : Nat.Prime 21888242871839275222246405745257275088548364400416034343698204186575808495617 := by
  apply lucas_primality 21888242871839275222246405745257275088548364400416034343698204186575808495617 ((5 : ℕ) : ZMod 21888242871839275222246405745257275088548364400416034343698204186575808495617)
  · rw [castPow_eq_powMod 21888242871839275222246405745257275088548364400416034343698204186575808495617 5 (21888242871839275222246405745257275088548364400416034343698204186575808495617 - 1) (by norm_num),
      show powMod 300 5 (21888242871839275222246405745257275088548364400416034343698204186575808495617 - 1) 21888242871839275222246405745257275088548364400416034343698204186575808495617 = 1 from by decide]
    exact Nat.cast_one
  · intro r hr hdvd
    have hfac : 21888242871839275222246405745257275088548364400416034343698204186575808495617 - 1 = 2 ^ 28 * 3 ^ 2 * 13 * 29 * 983 * 11003 * 237073 * 405928799 * 1670836401704629 * 13818364434197438864469338081 := by norm_num
    rw [hfac] at hdvd
    rcases dvd_split10 hr hdvd with (((((((((h0 | h1) | h2) | h3) | h4) | h5) | h6) | h7) | h8) | h9)
    · have hreq : r = 2 := (Nat.prime_dvd_prime_iff_eq hr prime_2).mp (hr.dvd_of_dvd_pow h0)
      subst hreq
      rw [show (21888242871839275222246405745257275088548364400416034343698204186575808495617 - 1) / 2 = 10944121435919637611123202872628637544274182200208017171849102093287904247808 from by norm_num,
        castPow_eq_powMod 21888242871839275222246405745257275088548364400416034343698204186575808495617 5 10944121435919637611123202872628637544274182200208017171849102093287904247808 (by norm_num),
        show powMod 300 5 10944121435919637611123202872628637544274182200208017171849102093287904247808 21888242871839275222246405745257275088548364400416034343698204186575808495617 = 21888242871839275222246405745257275088548364400416034343698204186575808495616 from by decide]
      exact natCast_ne_one 21888242871839275222246405745257275088548364400416034343698204186575808495617 21888242871839275222246405745257275088548364400416034343698204186575808495616 (by norm_num) (by norm_num) (by norm_num)
    · have hreq : r = 3 := (Nat.prime_dvd_prime_iff_eq hr prime_3).mp (hr.dvd_of_dvd_pow h1)
      subst hreq
      rw [show (21888242871839275222246405745257275088548364400416034343698204186575808495617 - 1) / 3 = 7296080957279758407415468581752425029516121466805344781232734728858602831872 from by norm_num,
        castPow_eq_powMod 21888242871839275222246405745257275088548364400416034343698204186575808495617 5 7296080957279758407415468581752425029516121466805344781232734728858602831872 (by norm_num),
        show powMod 300 5 7296080957279758407415468581752425029516121466805344781232734728858602831872 21888242871839275222246405745257275088548364400416034343698204186575808495617 = 4407920970296243842393367215006156084916469457145843978461 from by decide]
      exact natCast_ne_one 21888242871839275222246405745257275088548364400416034343698204186575808495617 4407920970296243842393367215006156084916469457145843978461 (by norm_num) (by norm_num) (by norm_num)
    · have hreq : r = 13 := (Nat.prime_dvd_prime_iff_eq hr prime_13).mp h2
      subst hreq
      rw [show (21888242871839275222246405745257275088548364400416034343698204186575808495617 - 1) / 13 = 1683710990141482709403569672712098083734489569262771872592169552813523730432 from by norm_num,
        castPow_eq_powMod 21888242871839275222246405745257275088548364400416034343698204186575808495617 5 1683710990141482709403569672712098083734489569262771872592169552813523730432 (by norm_num),
        show powMod 300 5 1683710990141482709403569672712098083734489569262771872592169552813523730432 21888242871839275222246405745257275088548364400416034343698204186575808495617 = 20846111736645777009767703653665533493788639406277865704073555848150445038125 from by decide]
      exact natCast_ne_one 21888242871839275222246405745257275088548364400416034343698204186575808495617 20846111736645777009767703653665533493788639406277865704073555848150445038125 (by norm_num) (by norm_num) (by norm_num)
    · have hreq : r = 29 := (Nat.prime_dvd_prime_iff_eq hr prime_29).mp h3
      subst hreq
      rw [show (21888242871839275222246405745257275088548364400416034343698204186575808495617 - 1) / 29 = 754766995580664662836082956733009485812012565531587391162007040916407189504 from by norm_num,
        castPow_eq_powMod 21888242871839275222246405745257275088548364400416034343698204186575808495617 5 754766995580664662836082956733009485812012565531587391162007040916407189504 (by norm_num),
        show powMod 300 5 754766995580664662836082956733009485812012565531587391162007040916407189504 21888242871839275222246405745257275088548364400416034343698204186575808495617 = 18357710930920482893114740859477755941065533295300174657912055312005893977631 from by decide]
      exact natCast_ne_one 21888242871839275222246405745257275088548364400416034343698204186575808495617 18357710930920482893114740859477755941065533295300174657912055312005893977631 (by norm_num) (by norm_num) (by norm_num)
    · have hreq : r = 983 := (Nat.prime_dvd_prime_iff_eq hr prime_983).mp h4
      subst hreq
      rw [show (21888242871839275222246405745257275088548364400416034343698204186575808495617 - 1) / 983 = 22266778099531307448877320188461114027007491760341845720954429487869591552 from by norm_num,
        castPow_eq_powMod 21888242871839275222246405745257275088548364400416034343698204186575808495617 5 22266778099531307448877320188461114027007491760341845720954429487869591552 (by norm_num),
        show powMod 300 5 22266778099531307448877320188461114027007491760341845720954429487869591552 21888242871839275222246405745257275088548364400416034343698204186575808495617 = 16151937248511612831218790030381502136078900305644383989873770910345603053439 from by decide]
      exact natCast_ne_one 21888242871839275222246405745257275088548364400416034343698204186575808495617 16151937248511612831218790030381502136078900305644383989873770910345603053439 (by norm_num) (by norm_num) (by norm_num)
    · have hreq : r = 11003 := (Nat.prime_dvd_prime_iff_eq hr prime_11003).mp h5
      subst hreq
      rw [show (21888242871839275222246405745257275088548364400416034343698204186575808495617 - 1) / 11003 = 1989297725333025104266691424634851866631679033028813445760083994053967872 from by norm_num,
        castPow_eq_powMod 21888242871839275222246405745257275088548364400416034343698204186575808495617 5 1989297725333025104266691424634851866631679033028813445760083994053967872 (by norm_num),
        show powMod 300 5 1989297725333025104266691424634851866631679033028813445760083994053967872 21888242871839275222246405745257275088548364400416034343698204186575808495617 = 8299083658399422953216871473066571686783765754016288837524968026835148283600 from by decide]
      exact natCast_ne_one 21888242871839275222246405745257275088548364400416034343698204186575808495617 8299083658399422953216871473066571686783765754016288837524968026835148283600 (by norm_num) (by norm_num) (by norm_num)
    · have hreq : r = 237073 := (Nat.prime_dvd_prime_iff_eq hr prime_237073).mp h6
      subst hreq
      rw [show (21888242871839275222246405745257275088548364400416034343698204186575808495617 - 1) / 237073 = 92327016875980289709272695521030547926370208334209439049146061283131392 from by norm_num,
        castPow_eq_powMod 21888242871839275222246405745257275088548364400416034343698204186575808495617 5 92327016875980289709272695521030547926370208334209439049146061283131392 (by norm_num),
        show powMod 300 5 92327016875980289709272695521030547926370208334209439049146061283131392 21888242871839275222246405745257275088548364400416034343698204186575808495617 = 1135558486015409621676726807058439328573409521523979529600469708688064761941 from by decide]
      exact natCast_ne_one 21888242871839275222246405745257275088548364400416034343698204186575808495617 1135558486015409621676726807058439328573409521523979529600469708688064761941 (by norm_num) (by norm_num) (by norm_num)
    · have hreq : r = 405928799 := (Nat.prime_dvd_prime_iff_eq hr prime_405928799).mp h7
      subst hreq
      rw [show (21888242871839275222246405745257275088548364400416034343698204186575808495617 - 1) / 405928799 = 53921384552563552462426805409431605981098090062873401459989056323584 from by norm_num,
        castPow_eq_powMod 21888242871839275222246405745257275088548364400416034343698204186575808495617 5 53921384552563552462426805409431605981098090062873401459989056323584 (by norm_num),
        show powMod 300 5 53921384552563552462426805409431605981098090062873401459989056323584 21888242871839275222246405745257275088548364400416034343698204186575808495617 = 19321818016159037061311250724021617607548090886696614157910334987366532500238 from by decide]
      exact natCast_ne_one 21888242871839275222246405745257275088548364400416034343698204186575808495617 19321818016159037061311250724021617607548090886696614157910334987366532500238 (by norm_num) (by norm_num) (by norm_num)
    · have hreq : r = 1670836401704629 := (Nat.prime_dvd_prime_iff_eq hr prime_1670836401704629).mp h8
      subst hreq
      rw [show (21888242871839275222246405745257275088548364400416034343698204186575808495617 - 1) / 1670836401704629 = 13100171177446423556613374118717413492986637444144570673659904 from by norm_num,
        castPow_eq_powMod 21888242871839275222246405745257275088548364400416034343698204186575808495617 5 13100171177446423556613374118717413492986637444144570673659904 (by norm_num),
        show powMod 300 5 13100171177446423556613374118717413492986637444144570673659904 21888242871839275222246405745257275088548364400416034343698204186575808495617 = 19643034808648967981397807206080768497060516784825884862247505212574391305991 from by decide]
      exact natCast_ne_one 21888242871839275222246405745257275088548364400416034343698204186575808495617 19643034808648967981397807206080768497060516784825884862247505212574391305991 (by norm_num) (by norm_num) (by norm_num)
    · have hreq : r = 13818364434197438864469338081 := (Nat.prime_dvd_prime_iff_eq hr prime_13818364434197438864469338081).mp h9
      subst hreq
      rw [show (21888242871839275222246405745257275088548364400416034343698204186575808495617 - 1) / 13818364434197438864469338081 = 1583996642733683218748855262055434666238317428736 from by norm_num,
        castPow_eq_powMod 21888242871839275222246405745257275088548364400416034343698204186575808495617 5 1583996642733683218748855262055434666238317428736 (by norm_num),
        show powMod 300 5 1583996642733683218748855262055434666238317428736 21888242871839275222246405745257275088548364400416034343698204186575808495617 = 7740382856488830440021062471495669005558519249383073335662966997885018076746 from by decide]
      exact natCast_ne_one 21888242871839275222246405745257275088548364400416034343698204186575808495617 7740382856488830440021062471495669005558519249383073335662966997885018076746 (by norm_num) (by norm_num) (by norm_num)

/-- The bn128 scalar field modulus used by circom 2.0.0 (the field of the circuit). -/
def p : ℕ := 21888242871839275222246405745257275088548364400416034343698204186575808495617

theorem p_prime : p.Prime :=
  prime_21888242871839275222246405745257275088548364400416034343698204186575808495617

instance : Fact p.Prime := ⟨p_prime⟩

instance : NeZero p := ⟨by norm_num [p]⟩

instance : Fact (1 < p) := ⟨by norm_num [p]⟩

theorem two_pow_253_lt_p : 2 ^ 253 < p := by norm_num [p]

/-- The circuit field: the scalar field of bn128, over which circom 2.0.0
evaluates all signals of `range_proof.circom`. -/
abbrev F : Type := ZMod p

/-! ## Shallow embedding of `circuits/range_proof.circom`

Each circom template is embedded twice, following the two phases of the
source language:

* a `_wit` function: the deterministic witness computation (the `<--` and
  `<==` right-hand sides), which is what the witness generator runs;
* a `_holds` predicate: the constraint system (the `===` and `<==`
  equalities), which is what a proof must satisfy.

Signals internal to a component instance are collected in a structure so
that a witness of a template is exactly an assignment to its signals. -/

/-- Witness computation of `Num2Bits(n)`: `out[i] <-- (in >> i) & 1`.
A circom shift/mask acts on the integer representative of the field
element, i.e. on `ZMod.val`. -/
def Num2Bits_wit (n : ℕ) (inp : F) : Fin n → F :=
  fun i => ((inp.val >>> (i : ℕ) &&& 1 : ℕ) : F)

/-- Constraint system of `Num2Bits(n)`: the boolean constraints
`out[i] * (out[i] - 1) === 0` and the reconstruction constraint
`lc === in` where `lc = Σ out[i] * (1 << i)`. -/
def Num2Bits_holds (n : ℕ) (inp : F) (out : Fin n → F) : Prop :=
  (∀ i : Fin n, out i * (out i - 1) = 0) ∧
    ∑ i : Fin n, out i * (2 : F) ^ (i : ℕ) = inp

/-- The signals of one `LessThan(n)` instance: the output bits of its
internal `Num2Bits(n+1)` component, and its output signal `out`. -/
structure LessThanW (n : ℕ) where
  bits : Fin (n + 1) → F
  out : F

/-- Constraint system of `LessThan(n)`:
`n2b.in <== in[0] + (1<<n) - in[1]` and `out <== 1 - n2b.out[n]`. -/
def LessThan_holds (n : ℕ) (in0 in1 : F) (w : LessThanW n) : Prop :=
  Num2Bits_holds (n + 1) (in0 + (2 : F) ^ n - in1) w.bits ∧
    w.out = 1 - w.bits ⟨n, Nat.lt_succ_self n⟩

/-- Witness computation of `LessThan(n)`. -/
def LessThan_wit (n : ℕ) (in0 in1 : F) : LessThanW n :=
  { bits := Num2Bits_wit (n + 1) (in0 + (2 : F) ^ n - in1)
    out := 1 - Num2Bits_wit (n + 1) (in0 + (2 : F) ^ n - in1) ⟨n, Nat.lt_succ_self n⟩ }

/-- The signals of one `GreaterThan(n)` instance. -/
structure GreaterThanW (n : ℕ) where
  lt : LessThanW n
  out : F

/-- Constraint system of `GreaterThan(n)`: delegates to `LessThan(n)` with
the operands swapped (`lt.in[0] <== in[1]`, `lt.in[1] <== in[0]`) and
returns its output unchanged (`out <== lt.out`). -/
def GreaterThan_holds (n : ℕ) (in0 in1 : F) (w : GreaterThanW n) : Prop :=
  LessThan_holds n in1 in0 w.lt ∧ w.out = w.lt.out

/-- Witness computation of `GreaterThan(n)`. -/
def GreaterThan_wit (n : ℕ) (in0 in1 : F) : GreaterThanW n :=
  { lt := LessThan_wit n in1 in0
    out := (LessThan_wit n in1 in0).out }

/-- The signals of one `GreaterEqThan(n)` instance. -/
structure GreaterEqThanW (n : ℕ) where
  lt : LessThanW n
  out : F

/-- Constraint system of `GreaterEqThan(n)`: `out <== 1 - lt.out` with
`lt = LessThan(n)` on the same operand order. -/
def GreaterEqThan_holds (n : ℕ) (in0 in1 : F) (w : GreaterEqThanW n) : Prop :=
  LessThan_holds n in0 in1 w.lt ∧ w.out = 1 - w.lt.out

/-- Witness computation of `GreaterEqThan(n)`. -/
def GreaterEqThan_wit (n : ℕ) (in0 in1 : F) : GreaterEqThanW n :=
  { lt := LessThan_wit n in0 in1
    out := 1 - (LessThan_wit n in0 in1).out }

/-- The signals of one `LessEqThan(n)` instance. -/
structure LessEqThanW (n : ℕ) where
  gt : GreaterThanW n
  out : F

/-- Constraint system of `LessEqThan(n)`: `out <== 1 - gt.out` with
`gt = GreaterThan(n)` on the same operand order. -/
def LessEqThan_holds (n : ℕ) (in0 in1 : F) (w : LessEqThanW n) : Prop :=
  GreaterThan_holds n in0 in1 w.gt ∧ w.out = 1 - w.gt.out

/-- Witness computation of `LessEqThan(n)`. -/
def LessEqThan_wit (n : ℕ) (in0 in1 : F) : LessEqThanW n :=
  { gt := GreaterThan_wit n in0 in1
    out := 1 - (GreaterThan_wit n in0 in1).out }

/-- The signals of one `RangeProof(n)` instance (besides its inputs):
its two comparator components and the signals `aboveMin`, `belowMax`,
`valid`. -/
structure RangeProofW (n : ℕ) where
  gtMin : GreaterEqThanW n
  ltMax : LessEqThanW n
  aboveMin : F
  belowMax : F
  valid : F

/-- Constraint system of `RangeProof(n)`:
`gtMin = GreaterEqThan(n)(value, minValue)`, `aboveMin <== gtMin.out`,
`ltMax = LessEqThan(n)(value, maxValue)`, `belowMax <== ltMax.out`,
`valid <== aboveMin * belowMax`, and the hard constraint `valid === 1`. -/
def RangeProof_holds (n : ℕ) (value minValue maxValue : F) (w : RangeProofW n) : Prop :=
  GreaterEqThan_holds n value minValue w.gtMin ∧
    w.aboveMin = w.gtMin.out ∧
    LessEqThan_holds n value maxValue w.ltMax ∧
    w.belowMax = w.ltMax.out ∧
    w.valid = w.aboveMin * w.belowMax ∧
    w.valid = 1

/-- Witness computation of `RangeProof(n)`. -/
def RangeProof_wit (n : ℕ) (value minValue maxValue : F) : RangeProofW n :=
  { gtMin := GreaterEqThan_wit n value minValue
    ltMax := LessEqThan_wit n value maxValue
    aboveMin := (GreaterEqThan_wit n value minValue).out
    belowMax := (LessEqThan_wit n value maxValue).out
    valid := (GreaterEqThan_wit n value minValue).out * (LessEqThan_wit n value maxValue).out }

/-- Construction-time admissibility of `LessThan(n)`: the circom
`assert(n <= 252)` executed when the template is instantiated. -/
def LessThan_builds (n : ℕ) : Bool := decide (n ≤ 252)

/-- Construction-time admissibility of `GreaterThan(n)`: it instantiates
`LessThan(n)`, inheriting its assert. -/
def GreaterThan_builds (n : ℕ) : Bool := LessThan_builds n

/-- Construction-time admissibility of `GreaterEqThan(n)`: it instantiates
`LessThan(n)`, inheriting its assert. -/
def GreaterEqThan_builds (n : ℕ) : Bool := LessThan_builds n

/-- Construction-time admissibility of `LessEqThan(n)`: it instantiates
`GreaterThan(n)`, inheriting its assert. -/
def LessEqThan_builds (n : ℕ) : Bool := GreaterThan_builds n

/-- Construction-time admissibility of `RangeProof(n)`: it instantiates
one `GreaterEqThan(n)` and one `LessEqThan(n)`. -/
def RangeProof_builds (n : ℕ) : Bool := GreaterEqThan_builds n && LessEqThan_builds n

/-! ## Arithmetic helper lemmas -/

/-- In the field, the boolean constraint pins a signal to `{0, 1}`. -/
theorem boolConstraint_iff (b : F) : b * (b - 1) = 0 ↔ b = 0 ∨ b = 1 := by
  rw [mul_eq_zero, sub_eq_zero]

theorem val_cast_self (x : F) : ((x.val : ℕ) : F) = x :=
  ZMod.natCast_rightInverse x

/-- A sum of binary digits weighted by powers of two is below `2 ^ n`. -/
theorem digitSum_lt (n : ℕ) (b : ℕ → ℕ) (hb : ∀ i < n, b i ≤ 1) :
    ∑ i ∈ Finset.range n, b i * 2 ^ i < 2 ^ n := by
  induction n with
  | zero => simp
  | succ m ih =>
    rw [Finset.sum_range_succ]
    have h1 := ih (fun i hi => hb i (by omega))
    have h2 : b m ≤ 1 := hb m (by omega)
    have h3 : b m * 2 ^ m ≤ 2 ^ m := by
      calc b m * 2 ^ m ≤ 1 * 2 ^ m := Nat.mul_le_mul_right _ h2
        _ = 2 ^ m := one_mul _
    have h4 : (2 : ℕ) ^ (m + 1) = 2 ^ m * 2 := pow_succ 2 m
    omega

/-- Splitting off the lowest digit of a weighted binary digit sum. -/
theorem digitSum_split (m : ℕ) (d : ℕ → ℕ) :
    ∑ i ∈ Finset.range (m + 1), d i * 2 ^ i
      = d 0 + 2 * ∑ i ∈ Finset.range m, d (i + 1) * 2 ^ i := by
  rw [Finset.sum_range_succ' (fun i => d i * 2 ^ i) m, Finset.mul_sum, pow_zero, mul_one,
    Nat.add_comm]
  congr 1
  apply Finset.sum_congr rfl
  intro i _
  rw [pow_succ]
  ring

/-- Binary representations are unique: two digit vectors that are binary
and have the same weighted sum agree. -/
theorem digitSum_inj (n : ℕ) : ∀ b c : ℕ → ℕ, (∀ i < n, b i ≤ 1) → (∀ i < n, c i ≤ 1) →
    ∑ i ∈ Finset.range n, b i * 2 ^ i = ∑ i ∈ Finset.range n, c i * 2 ^ i →
    ∀ j < n, b j = c j := by
  induction n with
  | zero => intro b c _ _ _ j hj; omega
  | succ m ih =>
    intro b c hb hc hsum j hj
    rw [digitSum_split m b, digitSum_split m c] at hsum
    have hb0 : b 0 ≤ 1 := hb 0 (by omega)
    have hc0 : c 0 ≤ 1 := hc 0 (by omega)
    have hT : ∑ i ∈ Finset.range m, b (i + 1) * 2 ^ i
        = ∑ i ∈ Finset.range m, c (i + 1) * 2 ^ i := by omega
    rcases Nat.eq_zero_or_pos j with hj0 | hjp
    · subst hj0; omega
    · obtain ⟨j', rfl⟩ : ∃ j'', j = j'' + 1 := ⟨j - 1, by omega⟩
      exact ih (fun i => b (i + 1)) (fun i => c (i + 1)) (fun i hi => hb (i + 1) (by omega))
        (fun i hi => hc (i + 1) (by omega)) hT j' (by omega)

/-- Reconstruction of a number from its binary digits `x / 2^i % 2`. -/
theorem digitSum_div_mod (n x : ℕ) :
    ∑ i ∈ Finset.range n, x / 2 ^ i % 2 * 2 ^ i = x % 2 ^ n := by
  induction n with
  | zero => simp [Nat.mod_one]
  | succ m ih =>
    rw [Finset.sum_range_succ, ih, Nat.mod_pow_succ]
    ring

/-- Conversion of the `Fin`-indexed constraint sum to an `ℕ`-indexed sum. -/
theorem fin_sum_to_range (n : ℕ) (out : Fin n → F) :
    ∑ i : Fin n, out i * (2 : F) ^ (i : ℕ)
      = ∑ j ∈ Finset.range n, (if h : j < n then out ⟨j, h⟩ else 0) * (2 : F) ^ j := by
  rw [← Fin.sum_univ_eq_sum_range (fun j => (if h : j < n then out ⟨j, h⟩ else 0) * (2 : F) ^ j) n]
  apply Finset.sum_congr rfl
  intro i _
  rw [dif_pos i.isLt]

/-! ## Num2Bits: soundness, completeness, uniqueness -/

/-- Soundness of `Num2Bits(n)` when `2 ^ n ≤ p`: any satisfying assignment
forces the input's integer representative below `2 ^ n` and every output
bit to be the corresponding binary digit of that representative. -/
theorem Num2Bits_sound {n : ℕ} (hn : 2 ^ n ≤ p) {inp : F} {out : Fin n → F}
    (h : Num2Bits_holds n inp out) :
    inp.val < 2 ^ n ∧ ∀ i : Fin n, out i = ((inp.val / 2 ^ (i : ℕ) % 2 : ℕ) : F) := by
  obtain ⟨hbool, hsum⟩ := h
  have hble : ∀ j, (hj : j < n) → (out ⟨j, hj⟩).val ≤ 1 := by
    intro j hj
    rcases (boolConstraint_iff _).mp (hbool ⟨j, hj⟩) with h0 | h1
    · simp [h0, ZMod.val_zero]
    · simp [h1, ZMod.val_one]
  have hS : inp = ((∑ j ∈ Finset.range n,
      (if hj : j < n then (out ⟨j, hj⟩).val else 0) * 2 ^ j : ℕ) : F) := by
    rw [← hsum, fin_sum_to_range, Nat.cast_sum]
    apply Finset.sum_congr rfl
    intro j hjm
    have hj : j < n := Finset.mem_range.mp hjm
    rw [dif_pos hj, dif_pos hj, Nat.cast_mul, Nat.cast_pow, Nat.cast_ofNat, val_cast_self]
  have hlt : (∑ j ∈ Finset.range n,
      (if hj : j < n then (out ⟨j, hj⟩).val else 0) * 2 ^ j) < 2 ^ n := by
    apply digitSum_lt
    intro i hi
    rw [dif_pos hi]
    exact hble i hi
  have hval : inp.val = ∑ j ∈ Finset.range n,
      (if hj : j < n then (out ⟨j, hj⟩).val else 0) * 2 ^ j := by
    rw [hS]
    exact ZMod.val_cast_of_lt (lt_of_lt_of_le hlt hn)
  refine ⟨by omega, ?_⟩
  intro i
  have hsum2 : ∑ j ∈ Finset.range n,
      (if hj : j < n then (out ⟨j, hj⟩).val else 0) * 2 ^ j
      = ∑ j ∈ Finset.range n, inp.val / 2 ^ j % 2 * 2 ^ j := by
    rw [digitSum_div_mod, Nat.mod_eq_of_lt (by omega), hval]
  have hdig := digitSum_inj n
    (fun j => if hj : j < n then (out ⟨j, hj⟩).val else 0)
    (fun j => inp.val / 2 ^ j % 2)
    (fun j hj => by simp only [dif_pos hj]; exact hble j hj)
    (fun j hj => by show inp.val / 2 ^ j % 2 ≤ 1; omega)
    hsum2 (i : ℕ) i.isLt
  simp only [dif_pos i.isLt] at hdig
  rw [← hdig, val_cast_self]

/-- Completeness of `Num2Bits(n)`: when the input's representative fits in
`n` bits, the generated witness satisfies the constraint system. -/
theorem Num2Bits_wit_holds {n : ℕ} {inp : F} (h : inp.val < 2 ^ n) :
    Num2Bits_holds n inp (Num2Bits_wit n inp) := by
  constructor
  · intro i
    apply (boolConstraint_iff _).mpr
    rcases Nat.mod_two_eq_zero_or_one (inp.val / 2 ^ (i : ℕ)) with h0 | h1
    · left
      simp [Num2Bits_wit, Nat.and_one_is_mod, Nat.shiftRight_eq_div_pow, h0]
    · right
      simp [Num2Bits_wit, Nat.and_one_is_mod, Nat.shiftRight_eq_div_pow, h1]
  · calc ∑ i : Fin n, Num2Bits_wit n inp i * (2 : F) ^ (i : ℕ)
        = ∑ i : Fin n, ((inp.val / 2 ^ (i : ℕ) % 2 * 2 ^ (i : ℕ) : ℕ) : F) := by
          apply Finset.sum_congr rfl
          intro i _
          simp [Num2Bits_wit, Nat.and_one_is_mod, Nat.shiftRight_eq_div_pow, Nat.cast_mul,
            Nat.cast_pow]
    _ = ((∑ j ∈ Finset.range n, inp.val / 2 ^ j % 2 * 2 ^ j : ℕ) : F) := by
          rw [Nat.cast_sum,
            Fin.sum_univ_eq_sum_range (fun j => ((inp.val / 2 ^ j % 2 * 2 ^ j : ℕ) : F)) n]
    _ = ((inp.val % 2 ^ n : ℕ) : F) := by rw [digitSum_div_mod]
    _ = inp := by rw [Nat.mod_eq_of_lt h, val_cast_self]

/-- Uniqueness of the `Num2Bits(n)` witness: any satisfying assignment
equals the generated one. -/
theorem Num2Bits_unique {n : ℕ} (hn : 2 ^ n ≤ p) {inp : F} {out : Fin n → F}
    (h : Num2Bits_holds n inp out) : out = Num2Bits_wit n inp := by
  funext i
  rw [(Num2Bits_sound hn h).2 i]
  simp [Num2Bits_wit, Nat.and_one_is_mod, Nat.shiftRight_eq_div_pow]

/-! ## LessThan: wraparound analysis and correctness -/

theorem two_pow_succ_lt_p {n : ℕ} (hn : n ≤ 252) : 2 ^ (n + 1) < p :=
  lt_of_le_of_lt (Nat.pow_le_pow_right (by omega) (by omega)) two_pow_253_lt_p

/-- The shifted operand `in[0] + (1<<n) - in[1]` of `LessThan(n)` does not
wrap around the field modulus: its integer representative is exactly
`in0.val + 2 ^ n - in1.val`. -/
theorem shifted_val {n : ℕ} (hn : n ≤ 252) {a b : F}
    (ha : a.val < 2 ^ n) (hb : b.val < 2 ^ n) :
    (a + (2 : F) ^ n - b).val = a.val + 2 ^ n - b.val := by
  have hble : b.val ≤ a.val + 2 ^ n := by omega
  have hcast : a + (2 : F) ^ n - b = ((a.val + 2 ^ n - b.val : ℕ) : F) := by
    rw [Nat.cast_sub hble, Nat.cast_add, Nat.cast_pow, Nat.cast_ofNat, val_cast_self,
      val_cast_self]
  rw [hcast]
  apply ZMod.val_cast_of_lt
  have h1 : a.val + 2 ^ n - b.val < 2 ^ (n + 1) := by
    have h2 : (2 : ℕ) ^ (n + 1) = 2 ^ n * 2 := pow_succ 2 n
    omega
  exact lt_trans h1 (two_pow_succ_lt_p hn)

/-- The computed output of `LessThan(n)` decides the strict comparison of
the integer representatives, for operands meeting the `n`-bit
precondition. -/
theorem LessThan_wit_out {n : ℕ} (hn : n ≤ 252) {a b : F}
    (ha : a.val < 2 ^ n) (hb : b.val < 2 ^ n) :
    (LessThan_wit n a b).out = if a.val < b.val then 1 else 0 := by
  have hs := shifted_val hn ha hb
  have hout : (LessThan_wit n a b).out
      = 1 - (((a + (2 : F) ^ n - b).val / 2 ^ n % 2 : ℕ) : F) := by
    show 1 - Num2Bits_wit (n + 1) (a + (2 : F) ^ n - b) ⟨n, Nat.lt_succ_self n⟩ = _
    simp [Num2Bits_wit, Nat.and_one_is_mod, Nat.shiftRight_eq_div_pow]
  rcases Nat.lt_or_ge a.val b.val with hab | hab
  · have hdiv : (a + (2 : F) ^ n - b).val / 2 ^ n = 0 := by
      apply Nat.div_eq_of_lt
      omega
    rw [hout, hdiv, if_pos hab]
    simp
  · have hdiv : (a + (2 : F) ^ n - b).val / 2 ^ n = 1 := by
      apply Nat.div_eq_of_lt_le
      · omega
      · omega
    rw [hout, hdiv, if_neg (by omega)]
    simp

/-- Any satisfying assignment of `LessThan(n)` equals the generated
witness (provided `2 ^ (n+1) ≤ p`, so that the internal decomposition is
unique). -/
theorem LessThan_unique {n : ℕ} (hn : 2 ^ (n + 1) ≤ p) {a b : F} {w : LessThanW n}
    (h : LessThan_holds n a b w) : w = LessThan_wit n a b := by
  obtain ⟨bits, out⟩ := w
  obtain ⟨hn2b, hout⟩ := h
  have hbits := Num2Bits_unique hn hn2b
  simp only at hn2b hout hbits
  simp only [LessThan_wit, LessThanW.mk.injEq]
  exact ⟨hbits, by rw [hout, hbits]⟩

/-- The generated witness of `LessThan(n)` satisfies its constraints as
soon as the shifted operand fits in `n + 1` bits. -/
theorem LessThan_wit_holds {n : ℕ} {a b : F}
    (h : (a + (2 : F) ^ n - b).val < 2 ^ (n + 1)) :
    LessThan_holds n a b (LessThan_wit n a b) :=
  ⟨Num2Bits_wit_holds h, rfl⟩

/-- Under the `n ≤ 252` precondition and `n`-bit operands, witness
generation for `LessThan(n)` always succeeds. -/
theorem LessThan_wit_holds_of_lt {n : ℕ} (hn : n ≤ 252) {a b : F}
    (ha : a.val < 2 ^ n) (hb : b.val < 2 ^ n) :
    LessThan_holds n a b (LessThan_wit n a b) := by
  apply LessThan_wit_holds
  rw [shifted_val hn ha hb]
  have h2 : (2 : ℕ) ^ (n + 1) = 2 ^ n * 2 := pow_succ 2 n
  omega

/-! ## Derived comparators -/

/-- The computed output of `GreaterEqThan(n)` decides `≥` on
representatives within the precondition. -/
theorem GreaterEqThan_wit_out {n : ℕ} (hn : n ≤ 252) {a b : F}
    (ha : a.val < 2 ^ n) (hb : b.val < 2 ^ n) :
    (GreaterEqThan_wit n a b).out = if b.val ≤ a.val then 1 else 0 := by
  show 1 - (LessThan_wit n a b).out = _
  rw [LessThan_wit_out hn ha hb]
  rcases Nat.lt_or_ge a.val b.val with h | h
  · rw [if_pos h, if_neg (by omega)]
    norm_num
  · rw [if_neg (by omega), if_pos (by omega)]
    norm_num

/-- The computed output of `GreaterThan(n)` decides `>` on representatives
within the precondition. -/
theorem GreaterThan_wit_out {n : ℕ} (hn : n ≤ 252) {a b : F}
    (ha : a.val < 2 ^ n) (hb : b.val < 2 ^ n) :
    (GreaterThan_wit n a b).out = if b.val < a.val then 1 else 0 := by
  show (LessThan_wit n b a).out = _
  exact LessThan_wit_out hn hb ha

/-- The computed output of `LessEqThan(n)` decides `≤` on representatives
within the precondition. -/
theorem LessEqThan_wit_out {n : ℕ} (hn : n ≤ 252) {a b : F}
    (ha : a.val < 2 ^ n) (hb : b.val < 2 ^ n) :
    (LessEqThan_wit n a b).out = if a.val ≤ b.val then 1 else 0 := by
  show 1 - (GreaterThan_wit n a b).out = _
  rw [GreaterThan_wit_out hn ha hb]
  rcases Nat.lt_or_ge b.val a.val with h | h
  · rw [if_pos h, if_neg (by omega)]
    norm_num
  · rw [if_neg (by omega), if_pos (by omega)]
    norm_num

/-- Any satisfying assignment of `GreaterEqThan(n)` equals the generated
witness. -/
theorem GreaterEqThan_unique {n : ℕ} (hn : 2 ^ (n + 1) ≤ p) {a b : F} {w : GreaterEqThanW n}
    (h : GreaterEqThan_holds n a b w) : w = GreaterEqThan_wit n a b := by
  obtain ⟨lt, out⟩ := w
  obtain ⟨hlt, hout⟩ := h
  simp only at hlt hout
  have h1 := LessThan_unique hn hlt
  simp only [GreaterEqThan_wit, GreaterEqThanW.mk.injEq]
  exact ⟨h1, by rw [hout, h1]⟩

/-- Any satisfying assignment of `GreaterThan(n)` equals the generated
witness. -/
theorem GreaterThan_unique {n : ℕ} (hn : 2 ^ (n + 1) ≤ p) {a b : F} {w : GreaterThanW n}
    (h : GreaterThan_holds n a b w) : w = GreaterThan_wit n a b := by
  obtain ⟨lt, out⟩ := w
  obtain ⟨hlt, hout⟩ := h
  simp only at hlt hout
  have h1 := LessThan_unique hn hlt
  simp only [GreaterThan_wit, GreaterThanW.mk.injEq]
  exact ⟨h1, by rw [hout, h1]⟩

/-- Any satisfying assignment of `LessEqThan(n)` equals the generated
witness. -/
theorem LessEqThan_unique {n : ℕ} (hn : 2 ^ (n + 1) ≤ p) {a b : F} {w : LessEqThanW n}
    (h : LessEqThan_holds n a b w) : w = LessEqThan_wit n a b := by
  obtain ⟨gt, out⟩ := w
  obtain ⟨hgt, hout⟩ := h
  simp only at hgt hout
  have h1 := GreaterThan_unique hn hgt
  simp only [LessEqThan_wit, LessEqThanW.mk.injEq]
  exact ⟨h1, by rw [hout, h1]⟩

/-! ## RangeProof: completeness, soundness, uniqueness -/

/-- Completeness of `RangeProof(n)`: for in-range inputs meeting the
`n`-bit preconditions, witness generation succeeds. -/
theorem RangeProof_wit_holds {n : ℕ} (hn : n ≤ 252) {v mn mx : F}
    (hv : v.val < 2 ^ n) (hmn : mn.val < 2 ^ n) (hmx : mx.val < 2 ^ n)
    (h1 : mn.val ≤ v.val) (h2 : v.val ≤ mx.val) :
    RangeProof_holds n v mn mx (RangeProof_wit n v mn mx) := by
  have hgeq : (GreaterEqThan_wit n v mn).out = 1 := by
    rw [GreaterEqThan_wit_out hn hv hmn, if_pos h1]
  have hleq : (LessEqThan_wit n v mx).out = 1 := by
    rw [LessEqThan_wit_out hn hv hmx, if_pos h2]
  refine ⟨⟨LessThan_wit_holds_of_lt hn hv hmn, rfl⟩, rfl,
    ⟨⟨LessThan_wit_holds_of_lt hn hmx hv, rfl⟩, rfl⟩, rfl, rfl, ?_⟩
  show (GreaterEqThan_wit n v mn).out * (LessEqThan_wit n v mx).out = 1
  rw [hgeq, hleq, one_mul]

/-- Soundness of `RangeProof(n)`: a satisfying assignment can only exist
for in-range inputs. -/
theorem RangeProof_sound {n : ℕ} (hn : n ≤ 252) {v mn mx : F} {w : RangeProofW n}
    (hv : v.val < 2 ^ n) (hmn : mn.val < 2 ^ n) (hmx : mx.val < 2 ^ n)
    (h : RangeProof_holds n v mn mx w) : mn.val ≤ v.val ∧ v.val ≤ mx.val := by
  obtain ⟨⟨hlt1, hgeo⟩, habove, ⟨⟨hlt2, hgto⟩, hleo⟩, hbelow, hvalid, hone⟩ := h
  have hple : 2 ^ (n + 1) ≤ p := le_of_lt (two_pow_succ_lt_p hn)
  have h1 := LessThan_unique hple hlt1
  have h2 := LessThan_unique hple hlt2
  have ho1 : w.gtMin.out = 1 - (if v.val < mn.val then 1 else 0) := by
    rw [hgeo, h1, LessThan_wit_out hn hv hmn]
  have ho2 : w.ltMax.out = 1 - (if mx.val < v.val then 1 else 0) := by
    rw [hleo, hgto, h2, LessThan_wit_out hn hmx hv]
  have hprod : w.aboveMin * w.belowMax = 1 := by rw [← hvalid, hone]
  rw [habove, hbelow, ho1, ho2] at hprod
  constructor
  · by_contra hc
    push_neg at hc
    rw [if_pos hc] at hprod
    simp at hprod
  · by_contra hc
    push_neg at hc
    rw [if_pos hc] at hprod
    simp at hprod

/-- Uniqueness of the `RangeProof(n)` witness: the constraint system pins
every internal and output signal to the generated witness. -/
theorem RangeProof_unique {n : ℕ} (hn : 2 ^ (n + 1) ≤ p) {v mn mx : F} {w : RangeProofW n}
    (h : RangeProof_holds n v mn mx w) : w = RangeProof_wit n v mn mx := by
  obtain ⟨gtMin, ltMax, aboveMin, belowMax, valid⟩ := w
  obtain ⟨hgeq, habove, hleq, hbelow, hvalid, hone⟩ := h
  simp only at hgeq habove hleq hbelow hvalid hone
  have h1 := GreaterEqThan_unique hn hgeq
  have h2 := LessEqThan_unique hn hleq
  simp only [RangeProof_wit, RangeProofW.mk.injEq]
  refine ⟨h1, h2, ?_, ?_, ?_⟩
  · rw [habove, h1]
  · rw [hbelow, h2]
  · rw [hvalid, habove, hbelow, h1, h2]

/-- Natural numbers below `2 ^ n` for `n ≤ 252` keep their value when cast
into the circuit field. -/
theorem val_natCast_small {n a : ℕ} (hn : n ≤ 252) (ha : a < 2 ^ n) :
    ((a : ℕ) : F).val = a := by
  apply ZMod.val_cast_of_lt
  calc a < 2 ^ n := ha
    _ ≤ 2 ^ 252 := Nat.pow_le_pow_right (by omega) hn
    _ < p := by norm_num [p]

/-! ## The claims -/

/-- C1: For the top-level circuit `RangeProof(32)`: for every `value`,
`minValue`, `maxValue` in `[0, 2^32)`, the constraint system has a
satisfying witness if and only if `minValue ≤ value ≤ maxValue` (inclusive
bounds; out-of-range values leave no satisfying assignment). -/
theorem C1_rangeProof_satisfiable_iff (value minValue maxValue : ℕ)
    (hv : value < 2 ^ 32) (hmn : minValue < 2 ^ 32) (hmx : maxValue < 2 ^ 32) :
    (∃ w : RangeProofW 32, RangeProof_holds 32 (value : F) (minValue : F) (maxValue : F) w)
      ↔ minValue ≤ value ∧ value ≤ maxValue := by
  have h32 : (32 : ℕ) ≤ 252 := by norm_num
  have hv' := val_natCast_small h32 hv
  have hmn' := val_natCast_small h32 hmn
  have hmx' := val_natCast_small h32 hmx
  constructor
  · rintro ⟨w, hw⟩
    have := RangeProof_sound h32 (by omega) (by omega) (by omega) hw
    omega
  · rintro ⟨h1, h2⟩
    exact ⟨RangeProof_wit 32 (value : F) (minValue : F) (maxValue : F),
      RangeProof_wit_holds h32 (by omega) (by omega) (by omega) (by omega) (by omega)⟩

/-- Witness for C1 at `value = 5`, `minValue = 3`, `maxValue = 7`. -/
theorem C1_witness :
    (5 < 2 ^ 32 ∧ 3 < 2 ^ 32 ∧ 7 < 2 ^ 32) ∧
      ((∃ w : RangeProofW 32, RangeProof_holds 32 ((5 : ℕ) : F) ((3 : ℕ) : F) ((7 : ℕ) : F) w)
        ↔ 3 ≤ 5 ∧ 5 ≤ 7) :=
  ⟨⟨by norm_num, by norm_num, by norm_num⟩,
    C1_rangeProof_satisfiable_iff 5 3 7 (by norm_num) (by norm_num) (by norm_num)⟩

/-- C2: In every satisfying assignment of the `RangeProof` constraint
system the output signal `valid` equals `1`; a satisfying assignment with
`valid = 0` is impossible. -/
theorem C2_valid_forced_one (n : ℕ) (value minValue maxValue : F) (w : RangeProofW n)
    (h : RangeProof_holds n value minValue maxValue w) :
    w.valid = 1 ∧ w.valid ≠ 0 := by
  obtain ⟨-, -, -, -, -, hone⟩ := h
  refine ⟨hone, ?_⟩
  rw [hone]
  exact one_ne_zero

/-- Witness for C2 on the concrete satisfying assignment generated for
`value = 5`, `minValue = 3`, `maxValue = 7`. -/
theorem C2_witness :
    (RangeProof_wit 32 ((5 : ℕ) : F) ((3 : ℕ) : F) ((7 : ℕ) : F)).valid = 1 ∧
      (RangeProof_wit 32 ((5 : ℕ) : F) ((3 : ℕ) : F) ((7 : ℕ) : F)).valid ≠ 0 := by
  have h32 : (32 : ℕ) ≤ 252 := by norm_num
  have h5 : ((5 : ℕ) : F).val = 5 := val_natCast_small h32 (by norm_num)
  have h3 : ((3 : ℕ) : F).val = 3 := val_natCast_small h32 (by norm_num)
  have h7 : ((7 : ℕ) : F).val = 7 := val_natCast_small h32 (by norm_num)
  exact C2_valid_forced_one 32 _ _ _ _
    (RangeProof_wit_holds h32 (by omega) (by omega) (by omega) (by omega) (by omega))

/-- C3: For every `n ≤ 252` and inputs in `[0, 2^n)`, `LessThan(n)`
outputs `1` exactly when `in[0] < in[1]` and `0` otherwise (so
`LessThan(a,b) = 1` and `LessThan(b,a) = 0` for `a < b`, and
`LessThan(a,a) = 0`), the output being `1` minus bit `n` of the
`Num2Bits(n+1)` decomposition of `in[0] + 2^n - in[1]`. -/
theorem C3_lessThan_correct (n a b : ℕ) (hn : n ≤ 252) (ha : a < 2 ^ n) (hb : b < 2 ^ n) :
    ((LessThan_wit n (a : F) (b : F)).out = if a < b then 1 else 0) ∧
      (a < b → (LessThan_wit n (a : F) (b : F)).out = 1 ∧
        (LessThan_wit n (b : F) (a : F)).out = 0) ∧
      (LessThan_wit n (a : F) (a : F)).out = 0 ∧
      (LessThan_wit n (a : F) (b : F)).out
        = 1 - Num2Bits_wit (n + 1) ((a : F) + (2 : F) ^ n - (b : F)) ⟨n, Nat.lt_succ_self n⟩ := by
  have ha' := val_natCast_small hn ha
  have hb' := val_natCast_small hn hb
  have hmain : (LessThan_wit n (a : F) (b : F)).out = if a < b then 1 else 0 := by
    rw [LessThan_wit_out hn (by omega) (by omega), ha', hb']
  refine ⟨hmain, ?_, ?_, rfl⟩
  · intro hab
    constructor
    · rw [hmain, if_pos hab]
    · rw [LessThan_wit_out hn (by omega) (by omega), hb', ha', if_neg (by omega)]
  · rw [LessThan_wit_out hn (by omega) (by omega), ha', if_neg (by omega)]

/-- Witness for C3 at `n = 8`, `a = 20`, `b = 100`. -/
theorem C3_witness :
    (8 ≤ 252 ∧ 20 < 2 ^ 8 ∧ 100 < 2 ^ 8) ∧
      ((LessThan_wit 8 ((20 : ℕ) : F) ((100 : ℕ) : F)).out = if 20 < 100 then 1 else 0) ∧
      (20 < 100 → (LessThan_wit 8 ((20 : ℕ) : F) ((100 : ℕ) : F)).out = 1 ∧
        (LessThan_wit 8 ((100 : ℕ) : F) ((20 : ℕ) : F)).out = 0) ∧
      (LessThan_wit 8 ((20 : ℕ) : F) ((20 : ℕ) : F)).out = 0 ∧
      (LessThan_wit 8 ((20 : ℕ) : F) ((100 : ℕ) : F)).out
        = 1 - Num2Bits_wit 9 (((20 : ℕ) : F) + (2 : F) ^ 8 - ((100 : ℕ) : F))
            ⟨8, Nat.lt_succ_self 8⟩ :=
  ⟨⟨by norm_num, by norm_num, by norm_num⟩,
    C3_lessThan_correct 8 20 100 (by norm_num) (by norm_num) (by norm_num)⟩

/-- C4: `Num2Bits` round-trip: for every `n` and input `x` in `[0, 2^n)`
the generated assignment satisfies the constraint system (bits boolean and
reconstructing the input exactly); when additionally `x < p` (so that `x`
is its own representative) every bit equals the corresponding binary digit
of `x`; and any hinted bit vector with a non-boolean entry violates the
boolean constraints. -/
theorem C4_num2bits_roundtrip (n x : ℕ) (hx : x < 2 ^ n) :
    Num2Bits_holds n (x : F) (Num2Bits_wit n (x : F)) ∧
      (x < p → ∀ i : Fin n, Num2Bits_wit n (x : F) i = ((x / 2 ^ (i : ℕ) % 2 : ℕ) : F)) ∧
      (∀ out : Fin n → F, (∃ i, out i ≠ 0 ∧ out i ≠ 1) →
        ¬ ∀ i : Fin n, out i * (out i - 1) = 0) := by
  refine ⟨?_, ?_, ?_⟩
  · apply Num2Bits_wit_holds
    calc ((x : ℕ) : F).val = x % p := ZMod.val_natCast x
      _ ≤ x := Nat.mod_le x p
      _ < 2 ^ n := hx
  · intro hxp i
    have hval : ((x : ℕ) : F).val = x := ZMod.val_cast_of_lt hxp
    simp [Num2Bits_wit, Nat.and_one_is_mod, Nat.shiftRight_eq_div_pow, hval]
  · rintro out ⟨i, hi0, hi1⟩ hbool
    rcases (boolConstraint_iff (out i)).mp (hbool i) with h | h
    · exact hi0 h
    · exact hi1 h

/-- Witness for C4 at `n = 8`, `x = 0xB5 = 181`. -/
theorem C4_witness :
    (181 < 2 ^ 8) ∧
      Num2Bits_holds 8 ((181 : ℕ) : F) (Num2Bits_wit 8 ((181 : ℕ) : F)) ∧
      (181 < p → ∀ i : Fin 8, Num2Bits_wit 8 ((181 : ℕ) : F) i
        = ((181 / 2 ^ (i : ℕ) % 2 : ℕ) : F)) ∧
      (∀ out : Fin 8 → F, (∃ i, out i ≠ 0 ∧ out i ≠ 1) →
        ¬ ∀ i : Fin 8, out i * (out i - 1) = 0) :=
  ⟨by norm_num, C4_num2bits_roundtrip 8 181 (by norm_num)⟩

/-- C5: `Num2Bits(n)` soundness for out-of-range inputs: with
`2 ^ n` below the field modulus, a field element whose representative
needs more than `n` bits admits no satisfying assignment at all. -/
theorem C5_num2bits_unsat (n : ℕ) (hn : 2 ^ n < p) (x : F) (hx : ¬ x.val < 2 ^ n) :
    ∀ out : Fin n → F, ¬ Num2Bits_holds n x out := by
  intro out h
  exact hx (Num2Bits_sound (le_of_lt hn) h).1

/-- Witness for C5 at `n = 1` and input `2`. -/
theorem C5_witness :
    (2 ^ 1 < p ∧ ¬ ((2 : ℕ) : F).val < 2 ^ 1) ∧
      ∀ out : Fin 1 → F, ¬ Num2Bits_holds 1 ((2 : ℕ) : F) out := by
  have hval : ((2 : ℕ) : F).val = 2 := ZMod.val_cast_of_lt (by norm_num [p])
  exact ⟨⟨by norm_num [p], by omega⟩,
    C5_num2bits_unsat 1 (by norm_num [p]) ((2 : ℕ) : F) (by omega)⟩

/-- C6: instantiating any comparator with `n > 252` is a construction-time
failure (the `assert(n <= 252)` in `LessThan` fires, also transitively for
every comparator and for `RangeProof`), and construction succeeds for
every `n ≤ 252`; in particular `n = 253` and above are rejected. -/
theorem C6_construction_bound (n : ℕ) :
    (LessThan_builds n = true ↔ n ≤ 252) ∧
      (GreaterThan_builds n = true ↔ n ≤ 252) ∧
      (GreaterEqThan_builds n = true ↔ n ≤ 252) ∧
      (LessEqThan_builds n = true ↔ n ≤ 252) ∧
      (RangeProof_builds n = true ↔ n ≤ 252) ∧
      (252 < n → LessThan_builds n = false ∧ RangeProof_builds n = false) := by
  refine ⟨?_, ?_, ?_, ?_, ?_, ?_⟩
  · simp [LessThan_builds]
  · simp [GreaterThan_builds, LessThan_builds]
  · simp [GreaterEqThan_builds, LessThan_builds]
  · simp [LessEqThan_builds, GreaterThan_builds, LessThan_builds]
  · simp [RangeProof_builds, GreaterEqThan_builds, LessEqThan_builds, GreaterThan_builds,
      LessThan_builds]
  · intro h
    constructor
    · simp only [LessThan_builds, decide_eq_false_iff_not]
      omega
    · simp only [RangeProof_builds, GreaterEqThan_builds, LessEqThan_builds,
        GreaterThan_builds, LessThan_builds, Bool.and_eq_false_iff, decide_eq_false_iff_not]
      left
      omega

/-- C7: comparator complement laws: `GreaterEqThan = 1 - LessThan` and
`LessEqThan = 1 - GreaterThan` on identical operand order; for `n ≤ 252`
and `n`-bit inputs, `GreaterEqThan` decides `≥` and `LessEqThan` decides
`≤`, the strict comparators' outputs being boolean. -/
theorem C7_complement_laws (n a b : ℕ) (hn : n ≤ 252) (ha : a < 2 ^ n) (hb : b < 2 ^ n) :
    (GreaterEqThan_wit n (a : F) (b : F)).out = 1 - (LessThan_wit n (a : F) (b : F)).out ∧
      (LessEqThan_wit n (a : F) (b : F)).out = 1 - (GreaterThan_wit n (a : F) (b : F)).out ∧
      ((GreaterEqThan_wit n (a : F) (b : F)).out = 1 ↔ b ≤ a) ∧
      ((LessEqThan_wit n (a : F) (b : F)).out = 1 ↔ a ≤ b) ∧
      ((LessThan_wit n (a : F) (b : F)).out = 0 ∨ (LessThan_wit n (a : F) (b : F)).out = 1) ∧
      ((GreaterThan_wit n (a : F) (b : F)).out = 0 ∨
        (GreaterThan_wit n (a : F) (b : F)).out = 1) := by
  have ha' := val_natCast_small hn ha
  have hb' := val_natCast_small hn hb
  refine ⟨rfl, rfl, ?_, ?_, ?_, ?_⟩
  · rw [GreaterEqThan_wit_out hn (by omega) (by omega), ha', hb']
    by_cases h : b ≤ a
    · simp [h]
    · simp [h]
  · rw [LessEqThan_wit_out hn (by omega) (by omega), ha', hb']
    by_cases h : a ≤ b
    · simp [h]
    · simp [h]
  · rw [LessThan_wit_out hn (by omega) (by omega)]
    by_cases h : ((a : ℕ) : F).val < ((b : ℕ) : F).val
    · right; rw [if_pos h]
    · left; rw [if_neg h]
  · rw [GreaterThan_wit_out hn (by omega) (by omega)]
    by_cases h : ((b : ℕ) : F).val < ((a : ℕ) : F).val
    · right; rw [if_pos h]
    · left; rw [if_neg h]

/-- Witness for C7 at `n = 8`, `a = 20`, `b = 100`. -/
theorem C7_witness :
    (8 ≤ 252 ∧ 20 < 2 ^ 8 ∧ 100 < 2 ^ 8) ∧
      (GreaterEqThan_wit 8 ((20 : ℕ) : F) ((100 : ℕ) : F)).out
        = 1 - (LessThan_wit 8 ((20 : ℕ) : F) ((100 : ℕ) : F)).out ∧
      (LessEqThan_wit 8 ((20 : ℕ) : F) ((100 : ℕ) : F)).out
        = 1 - (GreaterThan_wit 8 ((20 : ℕ) : F) ((100 : ℕ) : F)).out ∧
      ((GreaterEqThan_wit 8 ((20 : ℕ) : F) ((100 : ℕ) : F)).out = 1 ↔ 100 ≤ 20) ∧
      ((LessEqThan_wit 8 ((20 : ℕ) : F) ((100 : ℕ) : F)).out = 1 ↔ 20 ≤ 100) ∧
      ((LessThan_wit 8 ((20 : ℕ) : F) ((100 : ℕ) : F)).out = 0 ∨
        (LessThan_wit 8 ((20 : ℕ) : F) ((100 : ℕ) : F)).out = 1) ∧
      ((GreaterThan_wit 8 ((20 : ℕ) : F) ((100 : ℕ) : F)).out = 0 ∨
        (GreaterThan_wit 8 ((20 : ℕ) : F) ((100 : ℕ) : F)).out = 1) :=
  ⟨⟨by norm_num, by norm_num, by norm_num⟩,
    C7_complement_laws 8 20 100 (by norm_num) (by norm_num) (by norm_num)⟩

/-- C8: `GreaterThan(n)` equals `LessThan(n)` with operands swapped and
output returned unchanged; consequently it decides `>` on `n`-bit
inputs. -/
theorem C8_greaterThan_swap (n a b : ℕ) (hn : n ≤ 252) (ha : a < 2 ^ n) (hb : b < 2 ^ n) :
    (∀ x y : F, (GreaterThan_wit n x y).out = (LessThan_wit n y x).out) ∧
      (GreaterThan_wit n (a : F) (b : F)).out = if b < a then 1 else 0 := by
  have ha' := val_natCast_small hn ha
  have hb' := val_natCast_small hn hb
  refine ⟨fun x y => rfl, ?_⟩
  rw [GreaterThan_wit_out hn (by omega) (by omega), ha', hb']

/-- Witness for C8 at `n = 8`, `a = 20`, `b = 100`. -/
theorem C8_witness :
    (8 ≤ 252 ∧ 20 < 2 ^ 8 ∧ 100 < 2 ^ 8) ∧
      (∀ x y : F, (GreaterThan_wit 8 x y).out = (LessThan_wit 8 y x).out) ∧
      (GreaterThan_wit 8 ((20 : ℕ) : F) ((100 : ℕ) : F)).out = if 100 < 20 then 1 else 0 :=
  ⟨⟨by norm_num, by norm_num, by norm_num⟩,
    C8_greaterThan_swap 8 20 100 (by norm_num) (by norm_num) (by norm_num)⟩

/-- C9: no field wraparound inside `LessThan(n)` under its precondition:
the shifted operand's representative is exactly the integer
`a + 2^n - b`, lies in `[1, 2^(n+1) - 1]` (strictly below both
`2^(n+1)` and the field modulus), its `(n+1)`-bit decomposition satisfies
the `Num2Bits(n+1)` constraints, and its top bit is the borrow flag,
`1` iff `in[0] ≥ in[1]`. -/
theorem C9_no_wraparound (n a b : ℕ) (hn : n ≤ 252) (ha : a < 2 ^ n) (hb : b < 2 ^ n) :
    ((a : F) + (2 : F) ^ n - (b : F)).val + b = a + 2 ^ n ∧
      1 ≤ ((a : F) + (2 : F) ^ n - (b : F)).val ∧
      ((a : F) + (2 : F) ^ n - (b : F)).val ≤ 2 ^ (n + 1) - 1 ∧
      2 ^ (n + 1) < p ∧
      (((a : F) + (2 : F) ^ n - (b : F)).val.testBit n = true ↔ b ≤ a) ∧
      Num2Bits_holds (n + 1) ((a : F) + (2 : F) ^ n - (b : F))
        (Num2Bits_wit (n + 1) ((a : F) + (2 : F) ^ n - (b : F))) := by
  have ha' := val_natCast_small hn ha
  have hb' := val_natCast_small hn hb
  have hs := shifted_val hn (a := (a : F)) (b := (b : F)) (by omega) (by omega)
  rw [ha', hb'] at hs
  have h2 : (2 : ℕ) ^ (n + 1) = 2 ^ n * 2 := pow_succ 2 n
  refine ⟨by omega, by omega, by omega, two_pow_succ_lt_p hn, ?_, ?_⟩
  · rw [Nat.testBit_to_div_mod, hs]
    rcases Nat.lt_or_ge a b with hab | hab
    · have hdiv : (a + 2 ^ n - b) / 2 ^ n = 0 := Nat.div_eq_of_lt (by omega)
      rw [hdiv]
      simp
      omega
    · have hdiv : (a + 2 ^ n - b) / 2 ^ n = 1 := Nat.div_eq_of_lt_le (by omega) (by omega)
      rw [hdiv]
      simp
      omega
  · exact (LessThan_wit_holds_of_lt hn (by omega) (by omega)).1

/-- Witness for C9 at `n = 8`, `a = 20`, `b = 100`. -/
theorem C9_witness :
    (8 ≤ 252 ∧ 20 < 2 ^ 8 ∧ 100 < 2 ^ 8) ∧
      (((20 : ℕ) : F) + (2 : F) ^ 8 - ((100 : ℕ) : F)).val + 100 = 20 + 2 ^ 8 :=
  ⟨⟨by norm_num, by norm_num, by norm_num⟩,
    (C9_no_wraparound 8 20 100 (by norm_num) (by norm_num) (by norm_num)).1⟩

/-- C10: witness determinism of `RangeProof(32)`: for fixed inputs in
`[0, 2^32)` the constraint system has at most one satisfying assignment —
all decomposition bits, `aboveMin`, `belowMax` and `valid` are uniquely
determined by the inputs. -/
theorem C10_witness_determinism (value minValue maxValue : ℕ)
    (_hv : value < 2 ^ 32) (_hmn : minValue < 2 ^ 32) (_hmx : maxValue < 2 ^ 32) :
    ∀ w1 w2 : RangeProofW 32,
      RangeProof_holds 32 (value : F) (minValue : F) (maxValue : F) w1 →
      RangeProof_holds 32 (value : F) (minValue : F) (maxValue : F) w2 → w1 = w2 := by
  intro w1 w2 h1 h2
  have hp33 : 2 ^ (32 + 1) ≤ p := by norm_num [p]
  rw [RangeProof_unique hp33 h1, RangeProof_unique hp33 h2]

/-- Witness for C10 at `value = 5`, `minValue = 3`, `maxValue = 7`. -/
theorem C10_witness :
    (5 < 2 ^ 32 ∧ 3 < 2 ^ 32 ∧ 7 < 2 ^ 32) ∧
      ∀ w1 w2 : RangeProofW 32,
        RangeProof_holds 32 ((5 : ℕ) : F) ((3 : ℕ) : F) ((7 : ℕ) : F) w1 →
        RangeProof_holds 32 ((5 : ℕ) : F) ((3 : ℕ) : F) ((7 : ℕ) : F) w2 → w1 = w2 :=
  ⟨⟨by norm_num, by norm_num, by norm_num⟩,
    C10_witness_determinism 5 3 7 (by norm_num) (by norm_num) (by norm_num)⟩

end RangeProofCircuit
